import Mathlib

/-!
Verification of the minimal semantic vector store specified for the
chromadb-demo repository.  The repository's scripts are thin callers of a
vector-database client library; the specification (spec.md) describes the
minimal store such a library must implement: collections of
(id, vector, text, metadata) records, an embedder, an exact nearest-neighbour
index, a persistence layer and a client registry.  The definitions below embed
that store; the step6 script, whose code is in the repository, is embedded
separately at the end.
-/

namespace VectorStore

/-- Modelled from the spec: the error taxonomy of §7 — DuplicateId, NotFound,
NameCollision, InvalidArgument, EmbeddingUnavailable. -/
inductive StoreError where
  | DuplicateId
  | NotFound
  | NameCollision
  | InvalidArgument
  | EmbeddingUnavailable
deriving DecidableEq

/-- Modelled from the spec: a metadata scalar value (mapping string→scalar). -/
inductive Scalar where
  | str (s : String)
  | int (n : Int)
  | bool (b : Bool)
deriving DecidableEq

/-- Modelled from the spec: a record `{id, vector, text, metadata}` (§3).
Vectors are modelled as integer lists (the embedding is an abstract
deterministic function; the distance comparisons the claims need are exact). -/
structure Rcd where
  id : String
  vector : List Int
  text : String
  metadata : List (String × Scalar)
deriving DecidableEq

/-- Modelled from the spec: a collection `{name, records, index}` (§3); the
index of §4.3 is the exact brute-force structure, kept as the list of
(id, vector) entries in insertion order. -/
structure Collection where
  name : String
  records : List Rcd
  index : List (String × List Int)
deriving DecidableEq

/-- Modelled from the spec: `count()` returns the current record count. -/
def Collection.count (c : Collection) : Nat :=
  c.records.length

/-- Whether an id is already present in the collection. -/
def Collection.hasId (c : Collection) (i : String) : Bool :=
  c.records.any (fun r => r.id == i)

/-- Modelled from the spec: the pluggable embedder (§4.1, §9) — a capability
`{embed(texts) -> vectors}` with a local and a remote variant; the remote
variant carries the credential read from the environment at construction. -/
structure Embedder where
  remote : Bool
  key : Option String
  f : String → List Int

/-- Modelled from the spec: `embed(texts) -> vectors`, one vector per input
text, deterministic; fails with `EmbeddingUnavailable` when the remote
variant is selected without valid credentials (§4.1). -/
def Embedder.embed (e : Embedder) (texts : List String) :
    Except StoreError (List (List Int)) :=
  if e.remote && e.key.isNone then .error .EmbeddingUnavailable
  else .ok (texts.map e.f)

/-- Environment lookup for a credential variable (§6). -/
def envLookup (env : List (String × String)) (k : String) : Option String :=
  (env.find? (fun p => p.1 == k)).map (fun p => p.2)

/-- Modelled from the spec: constructing the remote-variant embedder reads the
credential variable once at construction time; absence must not crash — the
construction itself always succeeds (§6). -/
def mkRemoteEmbedder (env : List (String × String)) (f : String → List Int) :
    Except StoreError Embedder :=
  .ok { remote := true, key := envLookup env "OPENAI_API_KEY", f := f }

/-- Zip ids, vectors, texts and metadatas into records (stops at the shortest
list; the operations only reach it with equal lengths). -/
def mkRecords : List String → List (List Int) → List String →
    List (List (String × Scalar)) → List Rcd
  | i :: is, v :: vs, t :: ts, m :: ms => ⟨i, v, t, m⟩ :: mkRecords is vs ts ms
  | _, _, _, _ => []

/-- Modelled from the spec: `add(ids, texts, metadatas)` — fails with
`DuplicateId` if any id already exists in the collection (id is unique within
a collection, so a duplicate inside the batch is also refused); validation
happens before any mutation, then the texts are embedded and all records and
index entries are stored, or none are (§4.2, §7). -/
def Collection.add (e : Embedder) (c : Collection) (ids texts : List String)
    (metas : List (List (String × Scalar))) : Except StoreError Collection :=
  if ids.any c.hasId then .error .DuplicateId
  else if !ids.Nodup then .error .DuplicateId
  else if texts.length != ids.length || metas.length != ids.length then
    .error .InvalidArgument
  else
    match e.embed texts with
    | .error err => .error err
    | .ok vecs =>
      let rs := mkRecords ids vecs texts metas
      .ok { c with records := c.records ++ rs,
                   index := c.index ++ rs.map (fun r => (r.id, r.vector)) }

/-- The state-passing view of `add`: the collection after the call and the
error, if any.  A failed call returns the collection exactly as it was. -/
def Collection.addRun (e : Embedder) (c : Collection) (ids texts : List String)
    (metas : List (List (String × Scalar))) : Collection × Option StoreError :=
  match c.add e ids texts metas with
  | .ok c2 => (c2, none)
  | .error err => (c, some err)

/-- One upsert step: replace the record (and its index entry) when the id is
present, append it when absent. -/
def upsertOne (c : Collection) (r : Rcd) : Collection :=
  if c.hasId r.id then
    { c with
      records := c.records.map (fun r0 => if r0.id == r.id then r else r0),
      index := c.index.map (fun p => if p.1 == r.id then (r.id, r.vector) else p) }
  else
    { c with records := c.records ++ [r], index := c.index ++ [(r.id, r.vector)] }

/-- Modelled from the spec: `upsert(ids, texts, metadatas)` — for each id,
replaces the record if present (re-embeds, updates the index entry) or inserts
it if absent; no duplicate error possible (§4.2). -/
def Collection.upsert (e : Embedder) (c : Collection) (ids texts : List String)
    (metas : List (List (String × Scalar))) : Except StoreError Collection :=
  if texts.length != ids.length || metas.length != ids.length then
    .error .InvalidArgument
  else
    match e.embed texts with
    | .error err => .error err
    | .ok vecs => .ok ((mkRecords ids vecs texts metas).foldl upsertOne c)

/-- Modelled from the spec: `delete(ids)` — removes matching records and their
index entries; silently ignores ids not present (§4.2). -/
def Collection.delete (c : Collection) (ids : List String) : Collection :=
  { c with records := c.records.filter (fun r => !(ids.contains r.id)),
           index := c.index.filter (fun p => !(ids.contains p.1)) }

/-- Squared L2 distance between two vectors (§4.3 allows any fixed metric). -/
def sqDist (u v : List Int) : Int :=
  ((u.zip v).map (fun p => (p.1 - p.2) * (p.1 - p.2))).sum

/-- The parallel result lists for one query text (§4.2). -/
structure QueryResult where
  ids : List String
  documents : List String
  metadatas : List (List (String × Scalar))
  distances : List Int
deriving DecidableEq

/-- Comparison by distance used by the exact index: sort ascending, stable on
ties by insertion order (§4.3). -/
def distLe (a b : Rcd × Int) : Prop :=
  a.2 ≤ b.2

instance : DecidableRel distLe := fun a b => inferInstanceAs (Decidable (a.2 ≤ b.2))

instance : IsTotal (Rcd × Int) distLe := ⟨fun a b => Int.le_total a.2 b.2⟩

instance : IsTrans (Rcd × Int) distLe := ⟨fun _ _ _ h1 h2 => le_trans h1 h2⟩

/-- Modelled from the spec: the exact nearest-neighbour retrieval for one
query vector — brute-force distance over all stored vectors, sorted ascending,
top-k selected (§4.3); this model truncates when k exceeds the record count
(the policy choice §9 leaves open). -/
def Collection.queryOne (c : Collection) (qv : List Int) (k : Nat) : QueryResult :=
  let scored := c.records.map (fun r => (r, sqDist qv r.vector))
  let top := (List.insertionSort distLe scored).take k
  { ids := top.map (fun p => p.1.id),
    documents := top.map (fun p => p.1.text),
    metadatas := top.map (fun p => p.1.metadata),
    distances := top.map (fun p => p.2) }

/-- Modelled from the spec: `query(query_texts, n_results)` — embeds each
query text and retrieves the nearest records per query, parallel lists ordered
by ascending distance (§4.2). -/
def Collection.query (e : Embedder) (c : Collection) (qts : List String)
    (k : Nat) : Except StoreError (List QueryResult) :=
  match e.embed qts with
  | .error err => .error err
  | .ok qvs => .ok (qvs.map (fun qv => c.queryOne qv k))

/-- Modelled from the spec: the client registry mapping names to collections (§3). -/
structure Client where
  collections : List (String × Collection)
deriving DecidableEq

/-- Registry lookup by collection name. -/
def Client.lookup (cl : Client) (n : String) : Option Collection :=
  (cl.collections.find? (fun p => p.1 == n)).map (fun p => p.2)

/-- Modelled from the spec: `modify(name)` — renames the collection in its
owning client's registry; fails with `NameCollision` if the target name is
already taken, with `NotFound` if the renamed collection is absent (§4.2). -/
def Client.modifyCollection (cl : Client) (old target : String) :
    Except StoreError Client :=
  if cl.collections.any (fun p => p.1 == target) then .error .NameCollision
  else
    match cl.lookup old with
    | none => .error .NotFound
    | some c =>
      .ok ⟨cl.collections.map
        (fun p => if p.1 == old then (target, { c with name := target }) else p)⟩

/-- Modelled from the spec: `save(collection)` serializes the collection's
records under its name in the storage root (§4.4). -/
def saveCollection (st : List (String × List Rcd)) (c : Collection) :
    List (String × List Rcd) :=
  (c.name, c.records) :: st.filter (fun p => p.1 != c.name)

/-- Modelled from the spec: `load(storage_root)` reconstructs all collections
found under the root, rebuilding index state from the persisted vectors (§4.4). -/
def loadCollections (st : List (String × List Rcd)) : Client :=
  ⟨st.map (fun p =>
    (p.1, { name := p.1, records := p.2,
            index := p.2.map (fun r => (r.id, r.vector)) }))⟩

/-- When all four input lists have equal length, `mkRecords` builds one record
per id. -/
theorem mkRecords_length (ids : List String) :
    ∀ (vecs : List (List Int)) (texts : List String)
      (metas : List (List (String × Scalar))),
      vecs.length = ids.length → texts.length = ids.length →
      metas.length = ids.length →
      (mkRecords ids vecs texts metas).length = ids.length := by
  induction ids with
  | nil =>
    intro vecs texts metas hv ht hm
    rcases List.length_eq_zero.mp hv with rfl
    rcases List.length_eq_zero.mp ht with rfl
    rcases List.length_eq_zero.mp hm with rfl
    rfl
  | cons i is ih =>
    intro vecs texts metas hv ht hm
    cases vecs with
    | nil => simp at hv
    | cons v vs =>
      cases texts with
      | nil => simp at ht
      | cons t ts =>
        cases metas with
        | nil => simp at hm
        | cons m ms =>
          simp only [mkRecords, List.length_cons] at *
          rw [ih vs ts ms (by omega) (by omega) (by omega)]

/-- The ids of the records `mkRecords` builds are exactly the input ids when
all four input lists have equal length. -/
theorem mkRecords_map_id (ids : List String) :
    ∀ (vecs : List (List Int)) (texts : List String)
      (metas : List (List (String × Scalar))),
      vecs.length = ids.length → texts.length = ids.length →
      metas.length = ids.length →
      (mkRecords ids vecs texts metas).map Rcd.id = ids := by
  induction ids with
  | nil =>
    intro vecs texts metas hv ht hm
    rcases List.length_eq_zero.mp hv with rfl
    rcases List.length_eq_zero.mp ht with rfl
    rcases List.length_eq_zero.mp hm with rfl
    rfl
  | cons i is ih =>
    intro vecs texts metas hv ht hm
    cases vecs with
    | nil => simp at hv
    | cons v vs =>
      cases texts with
      | nil => simp at ht
      | cons t ts =>
        cases metas with
        | nil => simp at hm
        | cons m ms =>
          simp only [mkRecords, List.map_cons, List.length_cons] at *
          rw [ih vs ts ms (by omega) (by omega) (by omega)]

/-- C1: for every collection state and every add call in which at least one id
already exists in the collection, the call fails with DuplicateId and the
resulting state is exactly the collection as it was before the call — no
partial insertion of the non-colliding ids. -/
theorem add_duplicate_atomic (e : Embedder) (c : Collection)
    (ids texts : List String) (metas : List (List (String × Scalar)))
    (h : ids.any c.hasId = true) :
    c.addRun e ids texts metas = (c, some StoreError.DuplicateId) := by
  simp [Collection.addRun, Collection.add, h]

/-- C3: whenever an add call completes successfully, the resulting count is
the previous count plus the number of added ids. -/
theorem add_count (e : Embedder) (c : Collection) (ids texts : List String)
    (metas : List (List (String × Scalar))) (c2 : Collection)
    (h : c.add e ids texts metas = Except.ok c2) :
    c2.count = c.count + ids.length := by
  unfold Collection.add at h
  split at h
  · exact absurd h (by simp)
  split at h
  · exact absurd h (by simp)
  split at h
  · exact absurd h (by simp)
  next hlen =>
  split at h
  next => exact absurd h (by simp)
  next vecs hembed =>
    have hlens : texts.length = ids.length ∧ metas.length = ids.length := by
      simpa using hlen
    have hv : vecs.length = texts.length := by
      unfold Embedder.embed at hembed
      split at hembed
      · exact absurd hembed (by simp)
      · injection hembed with h3
        rw [← h3, List.length_map]
    injection h with h2
    rw [← h2]
    simp only [Collection.count, List.length_append]
    rw [mkRecords_length ids vecs texts metas (hv.trans hlens.1) hlens.1 hlens.2]

/-- C6: delete removes exactly the records whose id is among the given ids,
silently ignores ids not present, and is idempotent — running the same delete
a second time raises no error and leaves the collection unchanged. -/
theorem delete_idempotent (c : Collection) (ids : List String) :
    (c.delete ids).delete ids = c.delete ids ∧
      ((c.delete ids).records.all (fun r => !(ids.contains r.id))) = true := by
  constructor
  · simp [Collection.delete, List.filter_filter]
  · simp only [Collection.delete, List.all_eq_true]
    intro r hr
    exact (List.mem_filter.mp hr).2

/-- C7: renaming a collection to a name already held by another collection in
the same client fails with NameCollision, and both collections are still
present in the registry unchanged. -/
theorem modify_name_collision (cl : Client) (a b : String) (ca cb : Collection)
    (ha : cl.lookup a = some ca) (hb : cl.lookup b = some cb) (_hab : a ≠ b) :
    cl.modifyCollection a b = Except.error StoreError.NameCollision ∧
      cl.lookup a = some ca ∧ cl.lookup b = some cb := by
  refine ⟨?_, ha, hb⟩
  have hany : cl.collections.any (fun p => p.1 == b) = true := by
    unfold Client.lookup at hb
    rcases Option.map_eq_some'.mp hb with ⟨pr, hfind, _⟩
    have hpr := List.find?_some hfind
    exact List.any_eq_true.mpr ⟨pr, List.mem_of_find?_eq_some hfind, hpr⟩
  simp [Client.modifyCollection, hany]

/-- C8: constructing the remote-variant embedder in an environment without the
credential variable does not fail; EmbeddingUnavailable surfaces only when
that embedder's embed operation is actually invoked. -/
theorem remote_embedder_deferred (env : List (String × String))
    (f : String → List Int) (texts : List String)
    (h : envLookup env "OPENAI_API_KEY" = none) :
    ∃ emb, mkRemoteEmbedder env f = Except.ok emb ∧
      emb.embed texts = Except.error StoreError.EmbeddingUnavailable := by
  refine ⟨_, rfl, ?_⟩
  simp [Embedder.embed, h]

/-- A concrete local embedder used by the witnesses. -/
def e0 : Embedder :=
  ⟨false, none, fun s => [Int.ofNat s.length]⟩

/-- A concrete two-record collection used by the witnesses. -/
def c0 : Collection :=
  ⟨"demo", [⟨"a", [1], "alpha", []⟩, ⟨"b", [3], "beta", []⟩],
   [("a", [1]), ("b", [3])]⟩

/-- C1 at a concrete input: adding with the already-present id "a" returns the
collection unchanged together with DuplicateId. -/
theorem add_duplicate_atomic_witness :
    Collection.addRun e0 c0 ["a", "z"] ["x", "y"] [[], []] =
      (c0, some StoreError.DuplicateId) :=
  add_duplicate_atomic e0 c0 ["a", "z"] ["x", "y"] [[], []] rfl

/-- C3 at a concrete input: adding two fresh ids to the two-record collection
yields count 4. -/
theorem add_count_witness :
    (Collection.mk "demo"
      [⟨"a", [1], "alpha", []⟩, ⟨"b", [3], "beta", []⟩,
       ⟨"c", [1], "g", []⟩, ⟨"d", [2], "dd", []⟩]
      [("a", [1]), ("b", [3]), ("c", [1]), ("d", [2])]).count =
      c0.count + ["c", "d"].length :=
  add_count e0 c0 ["c", "d"] ["g", "dd"] [[], []] _ rfl

/-- C7 at a concrete input: renaming "demo" to the taken name "other" fails
with NameCollision and both registry entries survive. -/
theorem modify_name_collision_witness :
    Client.modifyCollection ⟨[("demo", c0), ("other", Collection.mk "other" [] [])]⟩
        "demo" "other" = Except.error StoreError.NameCollision ∧
      Client.lookup ⟨[("demo", c0), ("other", Collection.mk "other" [] [])]⟩ "demo" =
        some c0 ∧
      Client.lookup ⟨[("demo", c0), ("other", Collection.mk "other" [] [])]⟩ "other" =
        some (Collection.mk "other" [] []) :=
  modify_name_collision ⟨[("demo", c0), ("other", Collection.mk "other" [] [])]⟩
    "demo" "other" c0 (Collection.mk "other" [] []) rfl rfl (by decide)

/-- C8 at a concrete input: the empty environment yields a remote embedder
whose construction succeeds and whose embed call alone fails. -/
theorem remote_embedder_deferred_witness :
    ∃ emb, mkRemoteEmbedder [] (fun s => [Int.ofNat s.length]) = Except.ok emb ∧
      emb.embed ["hello"] = Except.error StoreError.EmbeddingUnavailable :=
  remote_embedder_deferred [] (fun s => [Int.ofNat s.length]) ["hello"] rfl

/-- One upsert step changes the count by one exactly when the id was absent. -/
theorem upsertOne_count (c : Collection) (r : Rcd) :
    (upsertOne c r).count = c.count + (if c.hasId r.id then 0 else 1) := by
  by_cases h : c.hasId r.id
  · simp [upsertOne, Collection.count, h]
  · simp [upsertOne, Collection.count, h]

/-- After one upsert step an id is present iff it was present before or is the
upserted id. -/
theorem upsertOne_hasId (c : Collection) (r : Rcd) (i : String) :
    (upsertOne c r).hasId i = (c.hasId i || r.id == i) := by
  rcases Bool.eq_false_or_eq_true (c.hasId r.id) with h | h
  swap
  · unfold upsertOne
    rw [if_neg (by simp [h])]
    simp [Collection.hasId, List.any_append]
  · have hfun : ∀ r0 : Rcd,
        ((if r0.id == r.id then r else r0).id == i) = (r0.id == i) := by
      intro r0
      by_cases hr0 : r0.id == r.id
      · have heq : r0.id = r.id := by simpa using hr0
        simp [hr0, heq]
      · simp [hr0]
    unfold upsertOne
    rw [if_pos h]
    simp only [Collection.hasId, List.any_map, Function.comp_def]
    simp only [hfun]
    by_cases hri : r.id == i
    · have hii : r.id = i := by simpa using hri
      have hmem : c.records.any (fun r0 => r0.id == i) = true := by
        rw [← hii]
        exact h
      simp [hmem]
    · simp [hri]

/-- Folding upsert steps over records with pairwise-distinct ids grows the
count by the number of ids that were not previously present. -/
theorem foldl_upsert_count (rs : List Rcd) :
    ∀ c : Collection, (rs.map Rcd.id).Nodup →
      (rs.foldl upsertOne c).count =
        c.count + (rs.filter (fun r => !(c.hasId r.id))).length := by
  induction rs with
  | nil => intro c _; simp
  | cons r rest ih =>
    intro c hnd
    simp only [List.map_cons, List.nodup_cons] at hnd
    simp only [List.foldl_cons]
    rw [ih (upsertOne c r) hnd.2, upsertOne_count]
    have hfil : rest.filter (fun x => !((upsertOne c r).hasId x.id)) =
        rest.filter (fun x => !(c.hasId x.id)) := by
      apply List.filter_congr
      intro x hx
      rw [upsertOne_hasId]
      have hne : (r.id == x.id) = false := by
        have : r.id ≠ x.id := fun hEq => hnd.1 (hEq ▸ List.mem_map_of_mem Rcd.id hx)
        simpa using this
      simp [hne]
    rw [hfil]
    rcases Bool.eq_false_or_eq_true (c.hasId r.id) with hr | hr
    · simp [List.filter_cons, hr]
    · simp [List.filter_cons, hr]
      omega

/-- C4: upsert never raises a duplicate-id error; with pairwise-distinct ids
and matching list lengths it succeeds, replacing the records whose id is
present and inserting the rest, so the resulting count is the old count plus
the number of ids not previously present. -/
theorem upsert_no_duplicate (e : Embedder) (c : Collection)
    (ids texts : List String) (metas : List (List (String × Scalar)))
    (hn : ids.Nodup) (ht : texts.length = ids.length)
    (hm : metas.length = ids.length) (he : (e.remote && e.key.isNone) = false) :
    (∀ (ids2 texts2 : List String) (metas2 : List (List (String × Scalar))),
        c.upsert e ids2 texts2 metas2 ≠ Except.error StoreError.DuplicateId) ∧
      ∃ c2, c.upsert e ids texts metas = Except.ok c2 ∧
        c2.count = c.count + (ids.filter (fun i => !(c.hasId i))).length := by
  constructor
  · intro ids2 texts2 metas2 hcontra
    unfold Collection.upsert at hcontra
    split at hcontra
    · simp at hcontra
    · split at hcontra
      next err heq =>
        unfold Embedder.embed at heq
        split at heq
        · injection heq with h3
          rw [← h3] at hcontra
          simp at hcontra
        · exact absurd heq (by simp)
      next => simp at hcontra
  · have hembed : e.embed texts = Except.ok (texts.map e.f) := by
      simp [Embedder.embed, he]
    have hok : c.upsert e ids texts metas =
        Except.ok ((mkRecords ids (texts.map e.f) texts metas).foldl upsertOne c) := by
      simp [Collection.upsert, ht, hm, hembed]
    refine ⟨_, hok, ?_⟩
    have hmap : (mkRecords ids (texts.map e.f) texts metas).map Rcd.id = ids :=
      mkRecords_map_id ids _ texts metas (by simp [ht]) ht hm
    rw [foldl_upsert_count _ c (by rw [hmap]; exact hn)]
    have hcount :
        ((mkRecords ids (texts.map e.f) texts metas).filter
            (fun r => !(c.hasId r.id))).length =
          (ids.filter (fun i => !(c.hasId i))).length := by
      rw [← List.countP_eq_length_filter, ← List.countP_eq_length_filter]
      conv_rhs => rw [← hmap]
      rw [List.countP_map]
      rfl
    rw [hcount]

/-- C4 at a concrete input: upserting one present and one fresh id succeeds
and grows the count by exactly one. -/
theorem upsert_no_duplicate_witness :
    (∀ (ids2 texts2 : List String) (metas2 : List (List (String × Scalar))),
        Collection.upsert e0 c0 ids2 texts2 metas2 ≠
          Except.error StoreError.DuplicateId) ∧
      ∃ c2, Collection.upsert e0 c0 ["a", "w"] ["newa", "www"] [[], []] =
          Except.ok c2 ∧
        c2.count = c0.count +
          (["a", "w"].filter (fun i => !(c0.hasId i))).length :=
  upsert_no_duplicate e0 c0 ["a", "w"] ["newa", "www"] [[], []]
    (by decide) rfl rfl rfl

/-- The distances returned for one query vector are sorted non-decreasingly. -/
theorem queryOne_distances_sorted (c : Collection) (qv : List Int) (k : Nat) :
    List.Sorted (· ≤ ·) (c.queryOne qv k).distances := by
  have hs : List.Sorted distLe
      (List.insertionSort distLe (c.records.map (fun r => (r, sqDist qv r.vector)))) :=
    List.sorted_insertionSort distLe _
  have ht : List.Sorted distLe
      ((List.insertionSort distLe
        (c.records.map (fun r => (r, sqDist qv r.vector)))).take k) :=
    List.Pairwise.sublist (List.take_sublist k _) hs
  simpa [Collection.queryOne] using
    List.Pairwise.map (fun p : Rcd × Int => p.2) (fun _ _ h => h) ht

/-- In a sorted list the head is below every element. -/
theorem sorted_head_le (l : List Int) (hl : List.Sorted (· ≤ ·) l) :
    ∀ d0 ∈ l.head?, ∀ d ∈ l, d0 ≤ d := by
  intro d0 h0 d hd
  cases l with
  | nil => simp at h0
  | cons a t =>
    simp only [List.head?_cons, Option.mem_def, Option.some.injEq] at h0
    rcases List.mem_cons.mp hd with rfl | hdt
    · rw [← h0]
    · rw [← h0]
      exact List.rel_of_sorted_cons hl d hdt

/-- C2: every successful query over a non-empty collection returns, for each
query text, parallel ids/texts/metadatas/distances lists (equal length,
position-matched) whose distances are sorted non-decreasingly, so the first
distance is below every returned distance; with a positive n_results the
result is non-empty. -/
theorem query_sorted (e : Embedder) (c : Collection) (qts : List String)
    (k : Nat) (rs : List QueryResult) (qr : QueryResult)
    (hne : c.records ≠ []) (hq : c.query e qts k = Except.ok rs)
    (hqr : qr ∈ rs) :
    List.Sorted (· ≤ ·) qr.distances ∧
      qr.ids.length = qr.distances.length ∧
      qr.documents.length = qr.distances.length ∧
      qr.metadatas.length = qr.distances.length ∧
      (∀ d0 ∈ qr.distances.head?, ∀ d ∈ qr.distances, d0 ≤ d) ∧
      (0 < k → qr.distances ≠ []) := by
  unfold Collection.query at hq
  split at hq
  · exact absurd hq (by simp)
  next qvs heq =>
    injection hq with h2
    rw [← h2] at hqr
    rcases List.mem_map.mp hqr with ⟨qv, _, rfl⟩
    refine ⟨queryOne_distances_sorted c qv k, ?_, ?_, ?_,
      sorted_head_le _ (queryOne_distances_sorted c qv k), ?_⟩
    · simp [Collection.queryOne]
    · simp [Collection.queryOne]
    · simp [Collection.queryOne]
    · intro hk
      have hlen : (c.queryOne qv k).distances.length = min k c.records.length := by
        simp [Collection.queryOne]
      have hpos : 0 < (c.queryOne qv k).distances.length := by
        rw [hlen]
        exact lt_min hk (List.length_pos.mpr hne)
      exact List.length_pos.mp hpos

/-- C2 at a concrete input: querying the two-record collection returns two
ties sorted non-decreasingly with parallel lists. -/
theorem query_sorted_witness :
    List.Sorted (· ≤ ·)
        (QueryResult.mk ["a", "b"] ["alpha", "beta"] [[], []] [1, 1]).distances ∧
      (QueryResult.mk ["a", "b"] ["alpha", "beta"] [[], []] [1, 1]).ids.length =
        (QueryResult.mk ["a", "b"] ["alpha", "beta"] [[], []] [1, 1]).distances.length ∧
      (QueryResult.mk ["a", "b"] ["alpha", "beta"] [[], []] [1, 1]).documents.length =
        (QueryResult.mk ["a", "b"] ["alpha", "beta"] [[], []] [1, 1]).distances.length ∧
      (QueryResult.mk ["a", "b"] ["alpha", "beta"] [[], []] [1, 1]).metadatas.length =
        (QueryResult.mk ["a", "b"] ["alpha", "beta"] [[], []] [1, 1]).distances.length ∧
      (∀ d0 ∈ (QueryResult.mk ["a", "b"] ["alpha", "beta"] [[], []] [1, 1]).distances.head?,
        ∀ d ∈ (QueryResult.mk ["a", "b"] ["alpha", "beta"] [[], []] [1, 1]).distances,
          d0 ≤ d) ∧
      (0 < 2 →
        (QueryResult.mk ["a", "b"] ["alpha", "beta"] [[], []] [1, 1]).distances ≠ []) :=
  query_sorted e0 c0 ["qq"] 2
    [QueryResult.mk ["a", "b"] ["alpha", "beta"] [[], []] [1, 1]]
    (QueryResult.mk ["a", "b"] ["alpha", "beta"] [[], []] [1, 1])
    (by simp [c0]) rfl (by simp)

/-- C5: saving a collection whose index is in sync with its records and
loading from the same storage root reconstructs that very collection —
its records (ids, texts, metadatas) equal the pre-save ones and any fixed
query returns the same results as before persistence. -/
theorem save_load_roundtrip (st : List (String × List Rcd)) (c : Collection)
    (e : Embedder) (qts : List String) (k : Nat)
    (hidx : c.index = c.records.map (fun r => (r.id, r.vector))) :
    ∃ c2, (loadCollections (saveCollection st c)).lookup c.name = some c2 ∧
      c2 = c ∧ c2.records = c.records ∧
      c2.query e qts k = c.query e qts k := by
  refine ⟨c, ?_, rfl, rfl, rfl⟩
  have hcol : (Collection.mk c.name c.records
      (c.records.map (fun r => (r.id, r.vector)))) = c := by
    rw [← hidx]
  unfold loadCollections saveCollection Client.lookup
  simp [hcol]

/-- C5 at a concrete input: the two-record collection survives a save/load
round trip over the empty storage root, and a fixed query agrees. -/
theorem save_load_roundtrip_witness :
    ∃ c2, (loadCollections (saveCollection [] c0)).lookup c0.name = some c2 ∧
      c2 = c0 ∧ c2.records = c0.records ∧
      c2.query e0 ["qq"] 1 = c0.query e0 ["qq"] 1 :=
  save_load_roundtrip [] c0 e0 ["qq"] 1 rfl

/-- An id is absent exactly when it is not among the record ids. -/
theorem hasId_eq_false_iff (c : Collection) (i : String) :
    c.hasId i = false ↔ i ∉ c.records.map Rcd.id := by
  rw [← Bool.not_eq_true]
  simp [Collection.hasId, List.any_eq_true, List.mem_map]

/-- The collection well-formedness the operations maintain: record ids are
pairwise distinct and the index is exactly the (id, vector) projection of the
records, in order. -/
def Wf (c : Collection) : Prop :=
  (c.records.map Rcd.id).Nodup ∧
    c.index = c.records.map (fun r => (r.id, r.vector))

/-- A successful add preserves well-formedness. -/
theorem wf_add (e : Embedder) (c c2 : Collection) (ids texts : List String)
    (metas : List (List (String × Scalar))) (hw : Wf c)
    (h : c.add e ids texts metas = Except.ok c2) : Wf c2 := by
  unfold Collection.add at h
  split at h
  · exact absurd h (by simp)
  next hdup =>
  split at h
  · exact absurd h (by simp)
  next hnd =>
  split at h
  · exact absurd h (by simp)
  next hlen =>
  split at h
  next => exact absurd h (by simp)
  next vecs hembed =>
    have hlens : texts.length = ids.length ∧ metas.length = ids.length := by
      simpa using hlen
    have hv : vecs.length = texts.length := by
      unfold Embedder.embed at hembed
      split at hembed
      · exact absurd hembed (by simp)
      · injection hembed with h3
        rw [← h3, List.length_map]
    have hids : ids.Nodup := by simpa using hnd
    have hmap : (mkRecords ids vecs texts metas).map Rcd.id = ids :=
      mkRecords_map_id ids vecs texts metas (hv.trans hlens.1) hlens.1 hlens.2
    have hfresh : ∀ i ∈ ids, c.hasId i = false := by
      intro i hi
      cases hh : c.hasId i
      · rfl
      · exact absurd (List.any_eq_true.mpr ⟨i, hi, hh⟩) hdup
    injection h with h2
    rw [← h2]
    constructor
    · simp only [List.map_append, hmap]
      rw [List.nodup_append]
      refine ⟨hw.1, hids, ?_⟩
      intro a ha hb
      have hfa := hfresh a hb
      rw [hasId_eq_false_iff] at hfa
      exact hfa ha
    · simp only [List.map_append, hw.2]

/-- One upsert step preserves well-formedness. -/
theorem wf_upsertOne (c : Collection) (r : Rcd) (hw : Wf c) :
    Wf (upsertOne c r) := by
  rcases Bool.eq_false_or_eq_true (c.hasId r.id) with h | h
  · have hfun : ∀ r0 : Rcd, (if r0.id == r.id then r else r0).id = r0.id := by
      intro r0
      by_cases hr0 : r0.id == r.id
      · have heq : r0.id = r.id := by simpa using hr0
        simp [hr0, heq]
      · simp [hr0]
    unfold upsertOne
    rw [if_pos h]
    constructor
    · simp only [List.map_map, Function.comp_def, hfun]
      exact hw.1
    · rw [hw.2, List.map_map, List.map_map]
      apply List.map_congr_left
      intro r0 _
      simp only [Function.comp_def]
      by_cases hr0 : r0.id == r.id
      · have heq : r0.id = r.id := by simpa using hr0
        simp [hr0, heq]
      · simp [hr0]
  · unfold upsertOne
    rw [if_neg (by simp [h])]
    constructor
    · simp only [List.map_append, List.map_cons, List.map_nil]
      rw [List.nodup_append]
      refine ⟨hw.1, List.nodup_singleton _, ?_⟩
      intro a ha hb
      have hb2 : a = r.id := by simpa using hb
      rw [hasId_eq_false_iff] at h
      exact h (hb2 ▸ ha)
    · simp [hw.2]

/-- Folding upsert steps preserves well-formedness. -/
theorem wf_foldl_upsert (rs : List Rcd) :
    ∀ c : Collection, Wf c → Wf (rs.foldl upsertOne c) := by
  induction rs with
  | nil => intro c h; simpa using h
  | cons r rest ih =>
    intro c h
    rw [List.foldl_cons]
    exact ih _ (wf_upsertOne c r h)

/-- A successful upsert preserves well-formedness. -/
theorem wf_upsert (e : Embedder) (c c2 : Collection) (ids texts : List String)
    (metas : List (List (String × Scalar))) (hw : Wf c)
    (h : c.upsert e ids texts metas = Except.ok c2) : Wf c2 := by
  unfold Collection.upsert at h
  split at h
  · exact absurd h (by simp)
  split at h
  · exact absurd h (by simp)
  next vecs heq =>
    injection h with h2
    rw [← h2]
    exact wf_foldl_upsert _ c hw

/-- Delete preserves well-formedness. -/
theorem wf_delete (c : Collection) (ids : List String) (hw : Wf c) :
    Wf (c.delete ids) := by
  constructor
  · simp only [Collection.delete]
    exact List.Nodup.sublist (List.Sublist.map Rcd.id (List.filter_sublist _)) hw.1
  · simp only [Collection.delete]
    rw [hw.2, List.filter_map]
    rfl

/-- The collection states reachable from an empty collection by any sequence
of add, upsert and delete operations. -/
inductive Reachable : Collection → Prop where
  | empty (nm : String) : Reachable ⟨nm, [], []⟩
  | add (e : Embedder) (c c2 : Collection) (ids texts : List String)
      (metas : List (List (String × Scalar))) (hc : Reachable c)
      (h : c.add e ids texts metas = Except.ok c2) : Reachable c2
  | upsert (e : Embedder) (c c2 : Collection) (ids texts : List String)
      (metas : List (List (String × Scalar))) (hc : Reachable c)
      (h : c.upsert e ids texts metas = Except.ok c2) : Reachable c2
  | delete (c : Collection) (ids : List String) (hc : Reachable c) :
      Reachable (c.delete ids)

/-- Every reachable collection state is well-formed. -/
theorem reachable_wf (c : Collection) (h : Reachable c) : Wf c := by
  induction h with
  | empty nm => exact ⟨List.nodup_nil, rfl⟩
  | add e c c2 ids texts metas hc hok ih => exact wf_add e c c2 ids texts metas ih hok
  | upsert e c c2 ids texts metas hc hok ih =>
    exact wf_upsert e c c2 ids texts metas ih hok
  | delete c ids hc ih => exact wf_delete c ids ih

/-- With pairwise-distinct ids, the records matching a present id number
exactly one. -/
theorem nodup_filter_id_length (l : List Rcd) (hnd : (l.map Rcd.id).Nodup)
    (i : String) (hi : i ∈ l.map Rcd.id) :
    (l.filter (fun r0 => r0.id == i)).length = 1 := by
  have h1 : (l.map Rcd.id).count i = 1 := List.count_eq_one_of_mem hnd hi
  calc (l.filter (fun r0 => r0.id == i)).length
      = l.countP (fun r0 => r0.id == i) := (List.countP_eq_length_filter _ _).symm
    _ = (l.map Rcd.id).countP (fun x => x == i) :=
        (List.countP_map (fun x => x == i) Rcd.id l).symm
    _ = (l.map Rcd.id).count i := rfl
    _ = 1 := h1

/-- A well-formed collection keeps records and index in one-to-one sync. -/
theorem wf_sync (c : Collection) (hw : Wf c) :
    (∀ r ∈ c.records, (c.index.filter (fun p => p.1 == r.id)).length = 1) ∧
      (∀ p ∈ c.index, (c.records.filter (fun r => r.id == p.1)).length = 1) := by
  constructor
  · intro r hr
    rw [hw.2, List.filter_map, List.length_map]
    exact nodup_filter_id_length c.records hw.1 r.id (List.mem_map_of_mem Rcd.id hr)
  · intro p hp
    rw [hw.2] at hp
    rcases List.mem_map.mp hp with ⟨r, hrmem, rfl⟩
    exact nodup_filter_id_length c.records hw.1 r.id (List.mem_map_of_mem Rcd.id hrmem)

/-- C9: in every collection state reachable by any sequence of add, upsert and
delete operations, records and index stay in sync — every record id has
exactly one index entry and every index entry corresponds to exactly one
stored record. -/
theorem reachable_records_index_sync (c : Collection) (h : Reachable c) :
    (∀ r ∈ c.records, (c.index.filter (fun p => p.1 == r.id)).length = 1) ∧
      (∀ p ∈ c.index, (c.records.filter (fun r => r.id == p.1)).length = 1) :=
  wf_sync c (reachable_wf c h)

/-- A one-record collection reached by a single add from the empty state. -/
def c9w : Collection :=
  ⟨"t", [⟨"a", [1], "x", []⟩], [("a", [1])]⟩

/-- C9 at a concrete input: the state reached from empty by one add keeps its
record and index entry in one-to-one correspondence. -/
theorem reachable_records_index_sync_witness :
    (∀ r ∈ c9w.records, (c9w.index.filter (fun p => p.1 == r.id)).length = 1) ∧
      (∀ p ∈ c9w.index, (c9w.records.filter (fun r => r.id == p.1)).length = 1) :=
  reachable_records_index_sync c9w
    (Reachable.add e0 ⟨"t", [], []⟩ c9w ["a"] ["x"] [[]] (Reachable.empty "t") rfl)

/-! The step6 script (src/step6_advanced_openai_embeddings.py) embedded as the
sequence of observable effects it performs.  The script reads the credential
variable with os.getenv, prints a warning on the None branch, optionally
imports tiktoken inside a try/except, and then only PRINTS a code example
string that mentions the OpenAI embedding function — it never constructs or
invokes that embedding function itself. -/

/-- One observable effect of running the step6 script. -/
inductive Effect where
  | getenvRead (k : String)
  | printOut (s : String)
  | importTiktoken
  | encodeExamples
  | constructRemoteEmbedder
  | remoteEmbedCall
deriving DecidableEq

/-- The warning the script prints when the credential variable is absent. -/
def keyWarning : String :=
  "OpenAI API key not found."

/-- The code_example string literal the script prints in step 3; the OpenAI
embedding function appears only inside this printed text. -/
def codeExampleText : String :=
  "openai_ef = embedding_functions.OpenAIEmbeddingFunction(model_name=\"text-embedding-3-small\") ..."

/-- The api-key section: print on the found branch, three prints on the
None branch (the warning and the demo notes). -/
def step6KeySection (apiKey : Option String) : List Effect :=
  match apiKey with
  | some _ => [Effect.printOut "OpenAI API key found in environment variables!"]
  | none =>
      [Effect.printOut keyWarning,
       Effect.printOut "To complete this step fully, set OPENAI_API_KEY environment variable",
       Effect.printOut "For demonstration, we will show the code structure."]

/-- The body of the try-block: importing tiktoken either succeeds and counts
the example tokens, or raises ImportError. -/
def importTiktokenOp (avail : Bool) : Except String (List Effect) :=
  if avail then
    .ok [Effect.importTiktoken, Effect.encodeExamples,
         Effect.printOut "Token Counts for Sample Sentences:"]
  else .error "ImportError"

/-- The token section: the try/except around the tiktoken import — the
ImportError branch is caught and prints the install hint. -/
def step6TokenSection (avail : Bool) : List Effect :=
  match importTiktokenOp avail with
  | .ok es => es
  | .error _ => [Effect.printOut "tiktoken not installed. Run: pip install tiktoken"]

/-- The whole step6 script run: the effects it performs, or the uncaught
exception it raises. -/
def step6Run (env : List (String × String)) (tiktokenAvailable : Bool) :
    Except String (List Effect) :=
  .ok ([Effect.printOut "STEP 6: ADVANCED - USING OPENAI EMBEDDING MODEL",
        Effect.printOut "STEP 1: Setting up OpenAI API Key",
        Effect.getenvRead "OPENAI_API_KEY"]
    ++ step6KeySection (envLookup env "OPENAI_API_KEY")
    ++ [Effect.printOut "STEP 2: Understanding Tokens with tiktoken"]
    ++ step6TokenSection tiktokenAvailable
    ++ [Effect.printOut "STEP 3: Creating Collections with OpenAI Embeddings",
        Effect.printOut codeExampleText,
        Effect.printOut "STEP 4: Comparing Default vs OpenAI Embeddings",
        Effect.printOut "STEP 6 COMPLETE: Advanced Embeddings Explained!",
        Effect.printOut "ADDITIONAL RESOURCES"])

/-- C10: with OPENAI_API_KEY absent the step6 script still runs to completion
without raising, prints the missing-key warning, prints the OpenAI code only
as a string literal, and never constructs or invokes the OpenAI embedding
function — no remote embedding call happens. -/
theorem step6_no_remote (env : List (String × String)) (avail : Bool)
    (h : envLookup env "OPENAI_API_KEY" = none) :
    ∃ es, step6Run env avail = Except.ok es ∧
      Effect.remoteEmbedCall ∉ es ∧
      Effect.constructRemoteEmbedder ∉ es ∧
      Effect.printOut keyWarning ∈ es ∧
      Effect.printOut codeExampleText ∈ es := by
  refine ⟨_, rfl, ?_, ?_, ?_, ?_⟩ <;>
    cases avail <;>
      simp [step6Run, h, step6KeySection, step6TokenSection, importTiktokenOp]

/-- C10 at a concrete input: the empty environment with tiktoken available. -/
theorem step6_no_remote_witness :
    ∃ es, step6Run [] true = Except.ok es ∧
      Effect.remoteEmbedCall ∉ es ∧
      Effect.constructRemoteEmbedder ∉ es ∧
      Effect.printOut keyWarning ∈ es ∧
      Effect.printOut codeExampleText ∈ es :=
  step6_no_remote [] true rfl

end VectorStore
